import Mathlib

/-!
# The radio layer of `libs/radio/radio.cpp`

A shallow embedding of the `radio` namespace: the lifecycle function `radioEnable`, the
packet codec (`readRawPacket`, `sendRawPacket`), the configuration setters and the event
relay, over a recording model of the radio driver.

The driver (`uBit.radio`), the runtime's buffer type and the `DEVICE_*` constants are not part
of `radio.cpp`; they are represented by the `Target` parameters and by the small recording
driver below, which logs every call the module makes in `World.trace`.
-/

namespace radio

/-! ## Machine integers and bytes -/

/-- A byte (`uint8_t`). -/
abbrev Byte := Fin 256

/-- The value of `sizeof(int)` on the 32-bit target. -/
def sizeofInt : Nat := 4

/-- Conversion of an integer value to a 32-bit `unsigned` / `size_t` (wrap-around). -/
def toUInt32 (x : Int) : Int := x % 4294967296

/-- Conversion of an integer value to a 32-bit two's-complement `int`. -/
def toInt32 (x : Int) : Int := (x + 2147483648) % 4294967296 - 2147483648

/-- Subtraction in 32-bit unsigned arithmetic, as C performs it when one operand is a `size_t`. -/
def usub32 (a b : Int) : Int := toUInt32 (toUInt32 a - toUInt32 b)

/-- The four bytes of the object representation of an `int`, lowest byte first
(the layout `memcpy(..., &rssi, sizeof(int))` reads; the source assumes Int32LE). -/
def int32Bytes (x : Int) : List Byte :=
  let u : Nat := (toUInt32 x).toNat
  [Fin.ofNat u, Fin.ofNat (u / 256), Fin.ofNat (u / 65536), Fin.ofNat (u / 16777216)]

/-- Reading of a byte sequence as a little-endian two's-complement 32-bit integer, following
the wording of the specification (used only to state the layout of the RSSI trailer). -/
def decodeInt32LE (bs : List Byte) : Int :=
  let u : Nat := bs.foldr (fun b acc => b.val + 256 * acc) 0
  if u < 2147483648 then (u : Int) else (u : Int) - 4294967296

/-! ## Data model -/

/-- The constants `radio.cpp` takes from `pxt.h` and the device runtime, which are not part of
the sources: the success status, the maximal datagram size, the radio's event-bus ids and the
value of `pxt::programHash()`. The frame of `DEVICE_RADIO_MAX_PACKET_SIZE + sizeof(int)` bytes
is a stack array whose size is passed to `mkBuffer` as an `int`, hence `frame_fits`. -/
structure Target where
  DEVICE_OK : Int
  DEVICE_RADIO_MAX_PACKET_SIZE : Nat
  deviceIdRadio : Int
  deviceRadioEvtDatagram : Int
  programHash : Int
  frame_fits : DEVICE_RADIO_MAX_PACKET_SIZE + sizeofInt < 2147483648

/-- The micro:bit values of the constants (`MICROBIT_OK = 0`,
`MICROBIT_RADIO_MAX_PACKET_SIZE = 32`, `MICROBIT_ID_RADIO = 29`,
`MICROBIT_RADIO_EVT_DATAGRAM = 1`) with a sample program hash. -/
def microbit : Target :=
  { DEVICE_OK := 0
    DEVICE_RADIO_MAX_PACKET_SIZE := 32
    deviceIdRadio := 29
    deviceRadioEvtDatagram := 1
    programHash := 123456789
    frame_fits := by decide }

/-- Modelled from the spec: the driver's `PacketBuffer`, a received datagram
`(bytes, length, rssi)`; `length` is the length of `payload`. -/
structure PacketBuffer where
  payload : List Byte
  rssi : Int
deriving DecidableEq, Repr

/-- The value of `p.length()`. -/
def PacketBuffer.length (p : PacketBuffer) : Nat := p.payload.length

/-- The value of `p.getBytes()`. -/
def PacketBuffer.getBytes (p : PacketBuffer) : List Byte := p.payload

/-- The value of `p.getRSSI()`, an `int`. -/
def PacketBuffer.getRSSI (p : PacketBuffer) : Int := toInt32 p.rssi

/-- Modelled from the spec: the runtime's heap buffer behind `Buffer` (`pxt.h` is not part of
the sources): `data` with its declared `length`, which is held in a C `int`. A `Buffer` is a
pointer to one, `NULL` being `none`. -/
structure BoxedBuffer where
  data : List Byte
  length_fits : data.length < 2147483648
deriving DecidableEq

/-- The `length` field of a buffer. -/
def BoxedBuffer.length (b : BoxedBuffer) : Nat := b.data.length

/-- A `Buffer` argument: a pointer to a `BoxedBuffer`, possibly `NULL`. -/
abbrev Buffer := Option BoxedBuffer

/-- Modelled from the spec: `mkBuffer(data, len)` of the runtime, a fresh buffer holding the
first `len` bytes at `data` (`mkBuffer(NULL, 0)`, written `mkBuffer [] 0`, is the zero-length
buffer). -/
def mkBuffer (data : List Byte) (len : Nat) (h : len < 2147483648) : BoxedBuffer :=
  { data := data.take len
    length_fits := by
      have := List.length_take_le len data
      omega }

/-- The launch mode of a `MicroBitEvent`. -/
inductive EventLaunchMode where
  | CREATE_ONLY
  | CREATE_AND_FIRE
deriving DecidableEq, Repr

/-- The event record `MicroBitEvent(source, value, mode)`. -/
structure MicroBitEvent where
  source : Int
  value : Int
  mode : EventLaunchMode
deriving DecidableEq, Repr

/-- A handler passed to `registerWithDal` (an opaque reference). -/
abbrev Action := Nat

/-- The calls the module makes on its collaborators, as the recording driver logs them. -/
inductive Call where
  | enable (status : Int)
  | panic (code : Nat)
  | setGroup (v : Int)
  | setTransmitPower (v : Int)
  | setFrequencyBand (v : Int)
  | send (bytes : List Byte) (len : Int)
  | recv
  | eventReceived (e : MicroBitEvent)
  | registerWithDal (id : Int) (event : Int) (body : Action)
deriving DecidableEq, Repr

/-- The module's flag `radioEnabled` together with the state of the recording driver: the
configured group, power and band, the receive queue and the log of all calls so far. -/
structure World where
  radioEnabled : Bool
  group : Int
  power : Int
  band : Int
  rxQueue : List PacketBuffer
  trace : List Call
deriving DecidableEq, Repr

/-! ## The recording driver -/

/-- Appends a call to the log. -/
def record (c : Call) (s : World) : World := { s with trace := s.trace ++ [c] }

/-- The call `getRadio()->enable()`; its status `r` is supplied by the environment. -/
def driver_enable (r : Int) (s : World) : Int × World := (r, record (.enable r) s)

/-- The call `uBit.panic(code)`: the panic signal is logged. -/
def uBit_panic (code : Nat) (s : World) : World := record (.panic code) s

/-- The call `getRadio()->setGroup(v)`. -/
def driver_setGroup (v : Int) (s : World) : World := { record (.setGroup v) s with group := v }

/-- The call `getRadio()->setTransmitPower(v)`. -/
def driver_setTransmitPower (v : Int) (s : World) : World :=
  { record (.setTransmitPower v) s with power := v }

/-- The call `getRadio()->setFrequencyBand(v)`. -/
def driver_setFrequencyBand (v : Int) (s : World) : World :=
  { record (.setFrequencyBand v) s with band := v }

/-- The call `getRadio()->datagram.send(data, len)`: the driver is handed the `len` bytes
at `data`. -/
def datagram_send (data : List Byte) (len : Int) (s : World) : World :=
  record (.send (data.take len.toNat) len) s

/-- Modelled from the spec: `getRadio()->datagram.recv()`, non-blocking; it takes the next
datagram off the receive queue, or returns the `EmptyPacket` sentinel (`none`). -/
def datagram_recv (s : World) : Option PacketBuffer × World :=
  match s.rxQueue with
  | [] => (none, record .recv s)
  | p :: q => (some p, { record .recv s with rxQueue := q })

/-- The call `getRadio()->event.eventReceived(e)`. -/
def event_eventReceived (e : MicroBitEvent) (s : World) : World := record (.eventReceived e) s

/-- The call `registerWithDal(id, event, body)`. -/
def registerWithDal (id event : Int) (body : Action) (s : World) : World :=
  record (.registerWithDal id event body) s

/-! ## Memory operations on the stack frame -/

/-- The effect of `memset(buf, c, n)` on an `n`-byte array. -/
def memset (n : Nat) (c : Byte) : List Byte := List.replicate n c

/-- The effect of `memcpy(dst + off, src, n)`: bytes `[off, off + n)` of `dst` are overwritten
with the first `n` bytes of `src`. A copy that reads past `src` or writes past the end of `dst`
has no defined result (`none`). -/
def memcpy (dst : List Byte) (off : Nat) (src : List Byte) (n : Nat) : Option (List Byte) :=
  if n ≤ src.length ∧ off + n ≤ dst.length then
    some (dst.take off ++ src.take n ++ dst.drop (off + n))
  else none

/-! ## The module -/

/-- The function `radioEnable` (radio.cpp, lines 34-46); `r` is the status the driver's
`enable` returns in this call. -/
def radioEnable (T : Target) (r : Int) (s : World) : Int × World :=
  let (r, s) := driver_enable r s
  if r ≠ T.DEVICE_OK then
    let s := uBit_panic 43 s
    (r, s)
  else
    let s :=
      if !s.radioEnabled then
        let s := driver_setGroup T.programHash s
        let s := driver_setTransmitPower 6 s
        { s with radioEnabled := true }
      else s
    (r, s)

/-- The function `raiseEvent` (lines 56-60). -/
def raiseEvent (T : Target) (r : Int) (src value : Int) (s : World) : World :=
  let (e, s) := radioEnable T r s
  if e ≠ T.DEVICE_OK then s
  else event_eventReceived ⟨src, value, .CREATE_ONLY⟩ s

/-- The first copy of `readRawPacket` (lines 74-76): the zeroed frame after
`memcpy(buf, p.getBytes(), p.length())`. -/
def payloadCopy (T : Target) (p : PacketBuffer) : Option (List Byte) :=
  let buf := memset (T.DEVICE_RADIO_MAX_PACKET_SIZE + sizeofInt) 0
  memcpy buf 0 p.getBytes p.length

/-- The frame `readRawPacket` builds for a datagram (lines 73-77): payload copy, then the
RSSI at offset `DEVICE_RADIO_MAX_PACKET_SIZE`. -/
def frame (T : Target) (p : PacketBuffer) : Option (List Byte) :=
  let rssi := p.getRSSI
  match payloadCopy T p with
  | none => none
  | some buf => memcpy buf T.DEVICE_RADIO_MAX_PACKET_SIZE (int32Bytes rssi) sizeofInt

/-- The function `readRawPacket` (lines 66-79). The result is `none` when one of the copies
into the stack frame is out of bounds. -/
def readRawPacket (T : Target) (r : Int) (s : World) : Option (BoxedBuffer × World) :=
  let (e, s) := radioEnable T r s
  if e ≠ T.DEVICE_OK then some (mkBuffer [] 0 (by decide), s)
  else
    let (p, s) := datagram_recv s
    match p with
    | none => some (mkBuffer [] 0 (by decide), s)
    | some p =>
      match frame T p with
      | none => none
      | some buf =>
        some (mkBuffer buf (T.DEVICE_RADIO_MAX_PACKET_SIZE + sizeofInt) T.frame_fits, s)

/-- The function `sendRawPacket` (lines 85-92). `msg->length - sizeof(int)` is an unsigned
subtraction whose result is converted to `int`. -/
def sendRawPacket (T : Target) (r : Int) (msg : Buffer) (s : World) : World :=
  let (e, s) := radioEnable T r s
  if e ≠ T.DEVICE_OK then s
  else
    match msg with
    | none => s
    | some msg =>
      let len : Int := toInt32 (usub32 msg.length sizeofInt)
      if len > 0 then datagram_send msg.data len s else s

/-- The function `onDataReceived` (lines 101-106). -/
def onDataReceived (T : Target) (r : Int) (body : Action) (s : World) : World :=
  let (e, s) := radioEnable T r s
  if e ≠ T.DEVICE_OK then s
  else
    let s := registerWithDal T.deviceIdRadio T.deviceRadioEvtDatagram body s
    (datagram_recv s).2

/-- The function `setGroup` (lines 116-120). -/
def setGroup (T : Target) (r : Int) (id : Int) (s : World) : World :=
  let (e, s) := radioEnable T r s
  if e ≠ T.DEVICE_OK then s else driver_setGroup id s

/-- The function `setTransmitPower` (lines 131-135). -/
def setTransmitPower (T : Target) (r : Int) (power : Int) (s : World) : World :=
  let (e, s) := radioEnable T r s
  if e ≠ T.DEVICE_OK then s else driver_setTransmitPower power s

/-- The function `setFrequencyBand` (lines 146-149). -/
def setFrequencyBand (T : Target) (r : Int) (band : Int) (s : World) : World :=
  let (e, s) := radioEnable T r s
  if e ≠ T.DEVICE_OK then s else driver_setFrequencyBand band s

/-- The sends logged in a trace, in order: the bytes handed over and the length argument. -/
def sends (tr : List Call) : List (List Byte × Int) :=
  tr.filterMap fun c => match c with
    | .send bytes len => some (bytes, len)
    | _ => none

/-- The event records handed to `event.eventReceived` in a trace, in order. -/
def events (tr : List Call) : List MicroBitEvent :=
  tr.filterMap fun c => match c with
    | .eventReceived e => some e
    | _ => none

/-- The number of `datagram.recv` calls in a trace. -/
def recvs (tr : List Call) : Nat := tr.count .recv

/-! ## Sequences of operations -/

/-- The public operations of the module, with their arguments. -/
inductive Op where
  | raiseEvent (src value : Int)
  | readRawPacket
  | sendRawPacket (msg : Buffer)
  | onDataReceived (body : Action)
  | setGroup (id : Int)
  | setTransmitPower (power : Int)
  | setFrequencyBand (band : Int)
deriving DecidableEq

/-- One call of a public operation, `r` being the status the driver's `enable` returns during
it. The result is `none` when `readRawPacket` has no defined result. -/
def step (T : Target) (r : Int) (op : Op) (s : World) : Option World :=
  match op with
  | .raiseEvent src value => some (raiseEvent T r src value s)
  | .readRawPacket => (readRawPacket T r s).map fun x => x.2
  | .sendRawPacket msg => some (sendRawPacket T r msg s)
  | .onDataReceived body => some (onDataReceived T r body s)
  | .setGroup id => some (setGroup T r id s)
  | .setTransmitPower power => some (setTransmitPower T r power s)
  | .setFrequencyBand band => some (setFrequencyBand T r band s)

/-- What happens to the module over time: a call of a public operation, or the arrival of a
datagram from the air in the driver's receive queue. -/
inductive Event where
  | call (r : Int) (op : Op)
  | arrive (p : PacketBuffer)
deriving DecidableEq

/-- The state after a sequence of events. -/
def run (T : Target) : List Event → World → Option World
  | [], s => some s
  | .call r op :: es, s => (step T r op s).bind (run T es)
  | .arrive p :: es, s => run T es { s with rxQueue := s.rxQueue ++ [p] }

/-- A call that leaves the driver unengaged: an `enable` that did not succeed, or the panic
with code 43 that follows it. -/
def Call.failedEnable (T : Target) : Call → Bool
  | .enable r => r ≠ T.DEVICE_OK
  | .panic code => code = 43
  | _ => false

/-! ## Arithmetic and frame lemmas -/

theorem decode_int32Bytes (x : Int) (h1 : -2147483648 ≤ x) (h2 : x < 2147483648) :
    decodeInt32LE (int32Bytes x) = x := by
  simp only [decodeInt32LE, int32Bytes, toUInt32, List.foldr, Fin.ofNat]
  split <;> omega

theorem toInt32_of_range (x : Int) (h1 : -2147483648 ≤ x) (h2 : x < 2147483648) :
    toInt32 x = x := by
  unfold toInt32; omega

theorem int32Bytes_length (x : Int) : (int32Bytes x).length = 4 := rfl

theorem radioEnable_ok (T : Target) (s : World) :
    radioEnable T T.DEVICE_OK s =
      (T.DEVICE_OK,
        if s.radioEnabled then record (.enable T.DEVICE_OK) s
        else { driver_setTransmitPower 6
                (driver_setGroup T.programHash (record (.enable T.DEVICE_OK) s)) with
               radioEnabled := true }) := by
  cases h : s.radioEnabled <;> simp [radioEnable, driver_enable, record, h]

theorem radioEnable_fail (T : Target) (r : Int) (s : World) (h : r ≠ T.DEVICE_OK) :
    radioEnable T r s = (r, uBit_panic 43 (record (.enable r) s)) := by
  simp [radioEnable, driver_enable, h]

theorem payloadCopy_eq (T : Target) (p : PacketBuffer)
    (hL : p.length ≤ T.DEVICE_RADIO_MAX_PACKET_SIZE + sizeofInt) :
    payloadCopy T p =
      some (p.payload ++ List.replicate (T.DEVICE_RADIO_MAX_PACKET_SIZE + sizeofInt - p.length) 0) := by
  unfold PacketBuffer.length at hL
  simp [payloadCopy, memcpy, memset, PacketBuffer.length, PacketBuffer.getBytes, hL]

theorem frame_eq (T : Target) (p : PacketBuffer)
    (hL : p.length ≤ T.DEVICE_RADIO_MAX_PACKET_SIZE) :
    frame T p =
      some (p.payload ++ List.replicate (T.DEVICE_RADIO_MAX_PACKET_SIZE - p.length) 0
        ++ int32Bytes p.getRSSI) := by
  have h1 : p.length ≤ T.DEVICE_RADIO_MAX_PACKET_SIZE + sizeofInt := by omega
  unfold PacketBuffer.length at hL
  simp only [frame, payloadCopy_eq T p h1]
  simp [memcpy, sizeofInt, PacketBuffer.length, int32Bytes_length, List.take_append_eq_append_take,
    List.take_of_length_le, hL]
  refine ⟨by omega, ?_⟩
  rw [List.drop_of_length_le (by simp; omega), Nat.min_eq_left (by omega)]
  simp



theorem radioEnable_rxQueue (T : Target) (r : Int) (s : World) :
    (radioEnable T r s).2.rxQueue = s.rxQueue := by
  by_cases h : r = T.DEVICE_OK
  · subst h
    rw [radioEnable_ok]
    cases h : s.radioEnabled <;> simp [record, driver_setGroup, driver_setTransmitPower]
  · rw [radioEnable_fail T r s h]
    simp [uBit_panic, record]

theorem readRawPacket_recv (T : Target) (s : World) (p : PacketBuffer)
    (q : List PacketBuffer) (hq : s.rxQueue = p :: q) :
    readRawPacket T T.DEVICE_OK s =
      (frame T p).map fun buf =>
        (mkBuffer buf (T.DEVICE_RADIO_MAX_PACKET_SIZE + sizeofInt) T.frame_fits,
          { record .recv (radioEnable T T.DEVICE_OK s).2 with rxQueue := q }) := by
  have hrx : (radioEnable T T.DEVICE_OK s).2.rxQueue = p :: q := by
    rw [radioEnable_rxQueue, hq]
  have h1 : (radioEnable T T.DEVICE_OK s).1 = T.DEVICE_OK := by rw [radioEnable_ok]
  unfold readRawPacket
  generalize radioEnable T T.DEVICE_OK s = es at hrx h1
  obtain ⟨e, s1⟩ := es
  simp only at hrx h1
  subst h1
  simp only [ne_eq, not_true_eq_false, if_false, datagram_recv, hrx]
  cases frame T p <;> simp


theorem mkBuffer_data (buf : List Byte) (n : Nat) (h : n < 2147483648) (hn : buf.length = n) :
    (mkBuffer buf n h).data = buf := by
  simp [mkBuffer, List.take_of_length_le, hn]

theorem frame_length (T : Target) (p : PacketBuffer) :
    (p.payload ++ List.replicate (T.DEVICE_RADIO_MAX_PACKET_SIZE - p.length) 0
        ++ int32Bytes p.getRSSI).length
      = max p.length T.DEVICE_RADIO_MAX_PACKET_SIZE + sizeofInt := by
  unfold PacketBuffer.length
  simp [int32Bytes_length, sizeofInt]; omega

/-! ## The receive path -/

/-- C1: when the driver's `recv` returns a datagram of length `L ≤ MAX` with a 32-bit signed
RSSI `R` and `enable` succeeds, `readRawPacket` returns a buffer of length exactly `MAX + 4`
whose bytes `[0, L)` are the datagram's bytes, whose bytes `[L, MAX)` are zero and whose last
four bytes, read as a little-endian two's-complement int32, are `R`. -/
theorem readRawPacket_layout (T : Target) (s : World) (p : PacketBuffer)
    (q : List PacketBuffer) (hq : s.rxQueue = p :: q)
    (hL : p.length ≤ T.DEVICE_RADIO_MAX_PACKET_SIZE)
    (hR : -2147483648 ≤ p.rssi ∧ p.rssi < 2147483648) :
    ∃ b s', readRawPacket T T.DEVICE_OK s = some (b, s') ∧
      b.length = T.DEVICE_RADIO_MAX_PACKET_SIZE + 4 ∧
      b.data.take p.length = p.getBytes ∧
      (∀ i, p.length ≤ i → i < T.DEVICE_RADIO_MAX_PACKET_SIZE → b.data[i]? = some 0) ∧
      decodeInt32LE (b.data.drop T.DEVICE_RADIO_MAX_PACKET_SIZE) = p.rssi := by
  rw [readRawPacket_recv T s p q hq, frame_eq T p hL]
  have hlen := frame_length T p
  rw [Nat.max_eq_right hL] at hlen
  refine ⟨_, _, rfl, ?_, ?_, ?_, ?_⟩
  all_goals
    simp only [BoxedBuffer.length, mkBuffer_data _ _ _ hlen]
  · simpa [sizeofInt] using hlen
  · simp [PacketBuffer.length, PacketBuffer.getBytes, List.append_assoc]
  · intro i h1 h2
    unfold PacketBuffer.length at *
    rw [List.append_assoc, List.getElem?_append_right h1,
      List.getElem?_append_left (by simp; omega)]
    simp [List.getElem?_replicate]; omega
  · have h3 : (p.payload ++ List.replicate (T.DEVICE_RADIO_MAX_PACKET_SIZE - p.length) 0).length
        = T.DEVICE_RADIO_MAX_PACKET_SIZE := by
      unfold PacketBuffer.length at *; simp; omega
    rw [List.drop_left' h3]
    simp only [PacketBuffer.getRSSI, toInt32_of_range p.rssi hR.1 hR.2]
    exact decode_int32Bytes p.rssi hR.1 hR.2

/-- Witness for `readRawPacket_layout`: a three-byte datagram with RSSI -42 on the micro:bit. -/
theorem readRawPacket_layout_witness :
    ∃ b s', readRawPacket microbit microbit.DEVICE_OK
        ⟨false, 0, 0, 0, [⟨[1, 2, 3], -42⟩], []⟩ = some (b, s') ∧
      b.length = microbit.DEVICE_RADIO_MAX_PACKET_SIZE + 4 ∧
      b.data.take (PacketBuffer.length ⟨[1, 2, 3], -42⟩) = PacketBuffer.getBytes ⟨[1, 2, 3], -42⟩ ∧
      (∀ i, PacketBuffer.length ⟨[1, 2, 3], -42⟩ ≤ i → i < microbit.DEVICE_RADIO_MAX_PACKET_SIZE →
        b.data[i]? = some 0) ∧
      decodeInt32LE (b.data.drop microbit.DEVICE_RADIO_MAX_PACKET_SIZE) = -42 :=
  readRawPacket_layout microbit ⟨false, 0, 0, 0, [⟨[1, 2, 3], -42⟩], []⟩ ⟨[1, 2, 3], -42⟩ []
    rfl (by decide) (by decide)

/-! ## The send path -/


theorem len_eq (n : Nat) (h : n < 2147483648) :
    toInt32 (usub32 (n : Int) (sizeofInt : Int)) = (n : Int) - 4 := by
  simp only [toInt32, usub32, toUInt32, sizeofInt]
  omega

theorem sends_append (a b : List Call) : sends (a ++ b) = sends a ++ sends b := by
  simp [sends, List.filterMap_append]

theorem radioEnable_sends (T : Target) (r : Int) (s : World) :
    sends (radioEnable T r s).2.trace = sends s.trace := by
  by_cases h : r = T.DEVICE_OK
  · subst h
    rw [radioEnable_ok]
    cases h : s.radioEnabled <;>
      simp [record, driver_setGroup, driver_setTransmitPower, sends, List.filterMap_append]
  · rw [radioEnable_fail T r s h]
    simp [uBit_panic, record, sends, List.filterMap_append]

theorem sendRawPacket_eq (T : Target) (r : Int) (msg : Buffer) (s : World) :
    sendRawPacket T r msg s =
      if r ≠ T.DEVICE_OK then (radioEnable T r s).2
      else match msg with
        | none => (radioEnable T r s).2
        | some b =>
          if 4 < b.length then
            record (.send (b.data.take (b.length - 4)) ((b.length - 4 : Nat) : Int))
              (radioEnable T r s).2
          else (radioEnable T r s).2 := by
  have h1 : (radioEnable T r s).1 = r := by
    by_cases h : r = T.DEVICE_OK
    · subst h; rw [radioEnable_ok]
    · rw [radioEnable_fail T r s h]
  unfold sendRawPacket
  generalize radioEnable T r s = es at h1
  obtain ⟨e, s1⟩ := es
  simp only at h1
  subst h1
  by_cases h : e = T.DEVICE_OK
  · simp only [h, ne_eq, not_true_eq_false, if_false]
    cases msg with
    | none => rfl
    | some b =>
      have hb := b.length_fits
      simp only [BoxedBuffer.length, len_eq _ hb, datagram_send]
      by_cases h4 : 4 < b.data.length
      · have : (b.data.length : Int) - 4 > 0 := by omega
        have h5 : ((b.data.length : Int) - 4).toNat = b.data.length - 4 := by omega
        have h6 : (b.data.length : Int) - 4 = ((b.data.length - 4 : Nat) : Int) := by omega
        simp only [this, h4, if_true, h5]
        rw [h6]
      · have : ¬ ((b.data.length : Int) - 4 > 0) := by omega
        simp only [this, h4, if_false]
  · simp [h]


/-- C2: for a non-null buffer of length `n > 4`, `sendRawPacket` (enable succeeding) calls the
driver's `datagram.send` exactly once, with the `n - 4` bytes at offsets `[0, n - 4)` and
length `n - 4`; the four trailing bytes do not influence the call, and a buffer of length
`MAX + 4` forwards exactly its first `MAX` bytes. -/
theorem sendRawPacket_forwards (T : Target) (s : World) (msg : BoxedBuffer)
    (h : 4 < msg.length) :
    sendRawPacket T T.DEVICE_OK (some msg) s =
        record (.send (msg.data.take (msg.length - 4)) ((msg.length - 4 : Nat) : Int))
          (radioEnable T T.DEVICE_OK s).2 ∧
      sends (sendRawPacket T T.DEVICE_OK (some msg) s).trace =
        sends s.trace ++ [(msg.data.take (msg.length - 4), ((msg.length - 4 : Nat) : Int))] ∧
      (msg.data.take (msg.length - 4)).length = msg.length - 4 ∧
      (∀ other : BoxedBuffer, other.length = msg.length →
        other.data.take (msg.length - 4) = msg.data.take (msg.length - 4) →
        sendRawPacket T T.DEVICE_OK (some other) s = sendRawPacket T T.DEVICE_OK (some msg) s) ∧
      (msg.length = T.DEVICE_RADIO_MAX_PACKET_SIZE + 4 →
        sends (sendRawPacket T T.DEVICE_OK (some msg) s).trace =
          sends s.trace ++ [(msg.data.take T.DEVICE_RADIO_MAX_PACKET_SIZE,
            (T.DEVICE_RADIO_MAX_PACKET_SIZE : Int))]) := by
  have key : sendRawPacket T T.DEVICE_OK (some msg) s =
      record (.send (msg.data.take (msg.length - 4)) ((msg.length - 4 : Nat) : Int))
        (radioEnable T T.DEVICE_OK s).2 := by
    rw [sendRawPacket_eq]; simp [h]
  have hs : sends (sendRawPacket T T.DEVICE_OK (some msg) s).trace =
      sends s.trace ++ [(msg.data.take (msg.length - 4), ((msg.length - 4 : Nat) : Int))] := by
    rw [key]
    simp only [record, sends_append, radioEnable_sends]
    simp [sends]
  refine ⟨key, hs, ?_, ?_, ?_⟩
  · simp [BoxedBuffer.length]
  · intro other hl hd
    rw [key, sendRawPacket_eq]
    simp only [ne_eq, not_true_eq_false, if_false, h, if_true, hl, hd]
  · intro hm
    rw [hs, hm]
    simp

/-- Witness for `sendRawPacket_forwards`: a six-byte buffer on the micro:bit. -/
theorem sendRawPacket_forwards_witness :
    4 < (mkBuffer [10, 20, 30, 40, 50, 60] 6 (by decide)).length ∧
    sends (sendRawPacket microbit microbit.DEVICE_OK
        (some (mkBuffer [10, 20, 30, 40, 50, 60] 6 (by decide)))
        ⟨false, 0, 0, 0, [], []⟩).trace = [([10, 20], 2)] :=
  ⟨by decide,
    (sendRawPacket_forwards microbit ⟨false, 0, 0, 0, [], []⟩
      (mkBuffer [10, 20, 30, 40, 50, 60] 6 (by decide)) (by decide)).2.1⟩

/-- C3: for a null buffer and for every buffer of length at most 4, `sendRawPacket` never
calls the driver's `datagram.send`, whatever `enable` returns; beyond `radioEnable` it does
nothing. The length test is the code's own: an unsigned 32-bit subtraction converted to
`int` and compared with 0. -/
theorem sendRawPacket_short (T : Target) (r : Int) (s : World) (msg : Buffer)
    (h : ∀ b, msg = some b → b.length ≤ 4) :
    sendRawPacket T r msg s = (radioEnable T r s).2 ∧
      sends (sendRawPacket T r msg s).trace = sends s.trace := by
  have key : sendRawPacket T r msg s = (radioEnable T r s).2 := by
    rw [sendRawPacket_eq]
    cases msg with
    | none => simp
    | some b =>
      have := h b rfl
      have h2 : ¬ 4 < b.length := by omega
      simp [h2]
  exact ⟨key, by rw [key, radioEnable_sends]⟩

/-- Witness for `sendRawPacket_short`: a buffer of exactly four bytes. -/
theorem sendRawPacket_short_witness :
    (∀ b, some (mkBuffer [1, 2, 3, 4] 4 (by decide)) = some b → b.length ≤ 4) ∧
    sends (sendRawPacket microbit microbit.DEVICE_OK (some (mkBuffer [1, 2, 3, 4] 4 (by decide)))
      ⟨false, 0, 0, 0, [], []⟩).trace = [] :=
  ⟨by intro b hb; cases hb; decide,
    (sendRawPacket_short microbit microbit.DEVICE_OK ⟨false, 0, 0, 0, [], []⟩
      (some (mkBuffer [1, 2, 3, 4] 4 (by decide)))
      (by intro b hb; cases hb; decide)).2⟩

theorem sendRawPacket_sends (T : Target) (s : World) (msg : BoxedBuffer)
    (h : 4 < msg.length) :
    sends (sendRawPacket T T.DEVICE_OK (some msg) s).trace =
      sends s.trace ++ [(msg.data.take (msg.length - 4), ((msg.length - 4 : Nat) : Int))] := by
  rw [sendRawPacket_eq]
  simp only [ne_eq, not_true_eq_false, if_false, h, if_true, record, sends_append,
    radioEnable_sends]
  simp [sends]

theorem roundtrip_sends (T : Target) (s : World) (p : PacketBuffer) (q : List PacketBuffer)
    (hq : s.rxQueue = p :: q) (hL : p.length ≤ T.DEVICE_RADIO_MAX_PACKET_SIZE)
    (hM : 0 < T.DEVICE_RADIO_MAX_PACKET_SIZE) :
    ∃ b s', readRawPacket T T.DEVICE_OK s = some (b, s') ∧
      sends (sendRawPacket T T.DEVICE_OK (some b) s').trace =
        sends s'.trace ++
          [(p.payload ++ List.replicate (T.DEVICE_RADIO_MAX_PACKET_SIZE - p.length) 0,
            (T.DEVICE_RADIO_MAX_PACKET_SIZE : Int))] := by
  rw [readRawPacket_recv T s p q hq, frame_eq T p hL]
  have hlen := frame_length T p
  rw [Nat.max_eq_right hL] at hlen
  refine ⟨_, _, rfl, ?_⟩
  have hb := mkBuffer_data _ _ T.frame_fits hlen
  generalize mkBuffer _ _ T.frame_fits = b at hb
  have hl : b.length = T.DEVICE_RADIO_MAX_PACKET_SIZE + 4 := by
    rw [BoxedBuffer.length, hb, hlen, sizeofInt]
  rw [sendRawPacket_sends _ _ _ (by rw [hl]; omega), hl, hb]
  have h3 : (p.payload ++ List.replicate (T.DEVICE_RADIO_MAX_PACKET_SIZE - p.length) 0).length
      = T.DEVICE_RADIO_MAX_PACKET_SIZE := by
    unfold PacketBuffer.length at *; simp; omega
  simp only [Nat.add_sub_cancel]
  rw [List.take_left' h3]


/-! ## Round trip and bounds of the codec -/

/-- C4 (counterexample): on the micro:bit a three-byte datagram `[1, 2, 3]` read by
`readRawPacket` and passed on to `sendRawPacket` is transmitted as 32 bytes, the payload
followed by 29 zero bytes, which is not the original payload. -/
theorem roundtrip_counterexample :
    (readRawPacket microbit microbit.DEVICE_OK ⟨false, 0, 0, 0, [⟨[1, 2, 3], -42⟩], []⟩).map
        (fun x => sends (sendRawPacket microbit microbit.DEVICE_OK (some x.1) x.2).trace) =
      some [([1, 2, 3] ++ List.replicate 29 0, 32)] ∧
    ([1, 2, 3] ++ List.replicate 29 0 : List Byte) ≠ [1, 2, 3] := by
  decide

/-- C4 (amended): for a datagram of length `L ≤ MAX` (with `MAX ≥ 1`) and any RSSI, passing the
buffer returned by `readRawPacket` to `sendRawPacket` hands the driver exactly one datagram of
`MAX` bytes whose first `L` bytes are the original payload; it equals the original payload
exactly when `L = MAX`. -/
theorem roundtrip_payload_front (T : Target) (s : World) (p : PacketBuffer)
    (q : List PacketBuffer) (hq : s.rxQueue = p :: q)
    (hL : p.length ≤ T.DEVICE_RADIO_MAX_PACKET_SIZE)
    (hM : 0 < T.DEVICE_RADIO_MAX_PACKET_SIZE) :
    ∃ b s' sent, readRawPacket T T.DEVICE_OK s = some (b, s') ∧
      sends (sendRawPacket T T.DEVICE_OK (some b) s').trace =
        sends s'.trace ++ [(sent, (T.DEVICE_RADIO_MAX_PACKET_SIZE : Int))] ∧
      sent.length = T.DEVICE_RADIO_MAX_PACKET_SIZE ∧
      sent.take p.length = p.getBytes ∧
      (sent = p.getBytes ↔ p.length = T.DEVICE_RADIO_MAX_PACKET_SIZE) := by
  obtain ⟨b, s', h1, h2⟩ := roundtrip_sends T s p q hq hL hM
  refine ⟨b, s', _, h1, h2, ?_, ?_, ?_⟩
  · unfold PacketBuffer.length at *; simp; omega
  · simp [PacketBuffer.length, PacketBuffer.getBytes]
  · unfold PacketBuffer.length at *
    simp only [PacketBuffer.getBytes, List.append_right_eq_self, List.replicate_eq_nil_iff]
    omega

/-- Witness for `roundtrip_payload_front`: the three-byte datagram on the micro:bit. -/
theorem roundtrip_payload_front_witness :
    ∃ b s' sent, readRawPacket microbit microbit.DEVICE_OK
        ⟨false, 0, 0, 0, [⟨[1, 2, 3], -42⟩], []⟩ = some (b, s') ∧
      sends (sendRawPacket microbit microbit.DEVICE_OK (some b) s').trace =
        sends s'.trace ++ [(sent, (microbit.DEVICE_RADIO_MAX_PACKET_SIZE : Int))] ∧
      sent.length = microbit.DEVICE_RADIO_MAX_PACKET_SIZE ∧
      sent.take (PacketBuffer.length ⟨[1, 2, 3], -42⟩) = PacketBuffer.getBytes ⟨[1, 2, 3], -42⟩ ∧
      (sent = PacketBuffer.getBytes ⟨[1, 2, 3], -42⟩ ↔
        PacketBuffer.length ⟨[1, 2, 3], -42⟩ = microbit.DEVICE_RADIO_MAX_PACKET_SIZE) :=
  roundtrip_payload_front microbit ⟨false, 0, 0, 0, [⟨[1, 2, 3], -42⟩], []⟩ ⟨[1, 2, 3], -42⟩ []
    rfl (by decide) (by decide)

/-- C8 (counterexample): on the micro:bit the payload copy of a 33-byte datagram writes 33
bytes, the last of them at offset `MAX = 32` of the frame (`min(33, MAX)` would be 32), and
for a 37-byte datagram the copy does not fit the `MAX + 4`-byte frame at all, so that
`readRawPacket` has no defined result. -/
theorem payloadCopy_counterexample :
    payloadCopy microbit ⟨List.replicate 33 255, -42⟩ =
        some (List.replicate 33 255 ++ List.replicate 3 0) ∧
      (List.replicate 33 255 ++ List.replicate 3 0 : List Byte)[32]? = some 255 ∧
      payloadCopy microbit ⟨List.replicate 37 255, -42⟩ = none ∧
      readRawPacket microbit microbit.DEVICE_OK
        ⟨false, 0, 0, 0, [⟨List.replicate 37 255, -42⟩], []⟩ = none := by
  decide

/-- C8 (amended): for every datagram of length `L ≤ MAX` that `recv` returns, the payload copy
of `readRawPacket` copies exactly `L = min(L, MAX)` bytes to the front of the zeroed frame and
leaves every byte from offset `L` on, in particular those at or past offset `MAX`, untouched;
the result has length `MAX + 4` and its last 4 bytes are the bytes of the RSSI. -/
theorem payloadCopy_within_payload (T : Target) (s : World) (p : PacketBuffer)
    (q : List PacketBuffer) (hq : s.rxQueue = p :: q)
    (hL : p.length ≤ T.DEVICE_RADIO_MAX_PACKET_SIZE) :
    (∃ buf, payloadCopy T p = some buf ∧
        buf.length = T.DEVICE_RADIO_MAX_PACKET_SIZE + 4 ∧
        buf.take (min p.length T.DEVICE_RADIO_MAX_PACKET_SIZE) = p.getBytes ∧
        ∀ i, min p.length T.DEVICE_RADIO_MAX_PACKET_SIZE ≤ i →
          i < T.DEVICE_RADIO_MAX_PACKET_SIZE + 4 → buf[i]? = some 0) ∧
      ∃ b s', readRawPacket T T.DEVICE_OK s = some (b, s') ∧
        b.length = T.DEVICE_RADIO_MAX_PACKET_SIZE + 4 ∧
        b.data.drop T.DEVICE_RADIO_MAX_PACKET_SIZE = int32Bytes p.getRSSI := by
  have hlen := frame_length T p
  rw [Nat.max_eq_right hL] at hlen
  have h3 : (p.payload ++ List.replicate (T.DEVICE_RADIO_MAX_PACKET_SIZE - p.length) 0).length
      = T.DEVICE_RADIO_MAX_PACKET_SIZE := by
    unfold PacketBuffer.length at *; simp; omega
  constructor
  · rw [payloadCopy_eq T p (by omega), Nat.min_eq_left hL]
    refine ⟨_, rfl, ?_, ?_, ?_⟩
    · unfold PacketBuffer.length at *; simp [sizeofInt]; omega
    · simp [PacketBuffer.length, PacketBuffer.getBytes]
    · intro i h1 h2
      unfold PacketBuffer.length at *
      rw [List.getElem?_append_right h1]
      simp [List.getElem?_replicate, sizeofInt]; omega
  · rw [readRawPacket_recv T s p q hq, frame_eq T p hL]
    refine ⟨_, _, rfl, ?_, ?_⟩
    · rw [BoxedBuffer.length, mkBuffer_data _ _ _ hlen, hlen, sizeofInt]
    · rw [mkBuffer_data _ _ _ hlen, List.drop_left' h3]

/-- Witness for `payloadCopy_within_payload`: a full 32-byte datagram on the micro:bit. -/
theorem payloadCopy_within_payload_witness :
    PacketBuffer.length ⟨List.replicate 32 255, -42⟩ ≤ microbit.DEVICE_RADIO_MAX_PACKET_SIZE ∧
    ∃ b s', readRawPacket microbit microbit.DEVICE_OK
        ⟨false, 0, 0, 0, [⟨List.replicate 32 255, -42⟩], []⟩ = some (b, s') ∧
      b.length = microbit.DEVICE_RADIO_MAX_PACKET_SIZE + 4 ∧
      b.data.drop microbit.DEVICE_RADIO_MAX_PACKET_SIZE =
        int32Bytes (PacketBuffer.getRSSI ⟨List.replicate 32 255, -42⟩) :=
  ⟨by decide,
    (payloadCopy_within_payload microbit ⟨false, 0, 0, 0, [⟨List.replicate 32 255, -42⟩], []⟩
      ⟨List.replicate 32 255, -42⟩ [] rfl (by decide)).2⟩

/-- C9 (counterexample): on the micro:bit (`MAX = 32`) a 37-byte buffer makes `sendRawPacket`
hand 33 bytes to `datagram.send`, more than `DEVICE_RADIO_MAX_PACKET_SIZE`. -/
theorem send_length_counterexample :
    sends (sendRawPacket microbit microbit.DEVICE_OK
        (some (mkBuffer (List.replicate 37 7) 37 (by decide))) ⟨false, 0, 0, 0, [], []⟩).trace =
      [(List.replicate 33 7, 33)] ∧
    ¬ ((33 : Int) ≤ (microbit.DEVICE_RADIO_MAX_PACKET_SIZE : Int)) := by
  decide

/-- C9 (amended): whatever the buffer and the status of `enable`, every datagram
`sendRawPacket` hands to `datagram.send` has a length of at least 1, equal to the buffer's
length minus 4 and to the number of bytes handed over; it is at most
`DEVICE_RADIO_MAX_PACKET_SIZE` exactly when the buffer has at most `MAX + 4` bytes. -/
theorem sendRawPacket_send_length (T : Target) (r : Int) (msg : Buffer) (s : World) :
    ∃ new, sends (sendRawPacket T r msg s).trace = sends s.trace ++ new ∧
      new.length ≤ 1 ∧
      ∀ x ∈ new, ∃ b, msg = some b ∧ 1 ≤ x.2 ∧ x.2 = (b.length : Int) - 4 ∧
        (x.1.length : Int) = x.2 ∧
        (x.2 ≤ (T.DEVICE_RADIO_MAX_PACKET_SIZE : Int) ↔
          b.length ≤ T.DEVICE_RADIO_MAX_PACKET_SIZE + 4) := by
  rw [sendRawPacket_eq]
  by_cases hr : r = T.DEVICE_OK
  · cases msg with
    | none => exact ⟨[], by simp [hr, radioEnable_sends]⟩
    | some b =>
      by_cases h4 : 4 < b.length
      · refine ⟨[(b.data.take (b.length - 4), ((b.length - 4 : Nat) : Int))], ?_, by simp, ?_⟩
        · simp only [hr, ne_eq, not_true_eq_false, if_false, h4, if_true, record, sends_append,
            radioEnable_sends]
          simp [sends]
        · intro x hx
          simp only [List.mem_singleton] at hx
          subst hx
          refine ⟨b, rfl, ?_⟩
          simp only [BoxedBuffer.length, List.length_take] at *
          omega
      · exact ⟨[], by simp [hr, h4, radioEnable_sends]⟩
  · exact ⟨[], by simp [hr, radioEnable_sends]⟩

/-! ## The lifecycle function -/

/-- C5: in a state where `radioEnabled` is already true, a successful `radioEnable` only logs
the driver's `enable`: it calls neither setter and leaves group, power, band, the receive queue
and the flag as they were, also right after `setGroup` or `setTransmitPower` changed a setting;
and for any state, a second successful `radioEnable` leaves, but for the logged `enable`
call, exactly the state the first one left. -/
theorem radioEnable_idempotent (T : Target) :
    (∀ s : World, s.radioEnabled = true →
        radioEnable T T.DEVICE_OK s = (T.DEVICE_OK, record (.enable T.DEVICE_OK) s)) ∧
      (∀ s : World,
        (radioEnable T T.DEVICE_OK (radioEnable T T.DEVICE_OK s).2).2 =
          record (.enable T.DEVICE_OK) (radioEnable T T.DEVICE_OK s).2) ∧
      (∀ (s : World) (v : Int),
        (radioEnable T T.DEVICE_OK (setGroup T T.DEVICE_OK v s)).2 =
            record (.enable T.DEVICE_OK) (setGroup T T.DEVICE_OK v s) ∧
          (radioEnable T T.DEVICE_OK (setTransmitPower T T.DEVICE_OK v s)).2 =
            record (.enable T.DEVICE_OK) (setTransmitPower T T.DEVICE_OK v s)) := by
  have h1 : ∀ s : World, s.radioEnabled = true →
      radioEnable T T.DEVICE_OK s = (T.DEVICE_OK, record (.enable T.DEVICE_OK) s) := by
    intro s hs
    rw [radioEnable_ok, hs]
    rfl
  have h2 : ∀ s : World, (radioEnable T T.DEVICE_OK s).2.radioEnabled = true := by
    intro s
    rw [radioEnable_ok]
    cases h : s.radioEnabled <;> simp [record, h]
  refine ⟨h1, fun s => by rw [h1 _ (h2 s)], fun s v => ⟨?_, ?_⟩⟩
  · rw [h1]
    rw [setGroup, radioEnable_ok]
    simp only [ne_eq, not_true_eq_false, if_false, driver_setGroup, record]
    cases h : s.radioEnabled <;> simp [record, driver_setGroup, driver_setTransmitPower, h]
  · rw [h1]
    rw [setTransmitPower, radioEnable_ok]
    simp only [ne_eq, not_true_eq_false, if_false, driver_setTransmitPower, record]
    cases h : s.radioEnabled <;> simp [record, driver_setGroup, driver_setTransmitPower, h]

/-- Witness for `radioEnable_idempotent`: an enabled micro:bit configured with group 5,
power 3 and band 7. -/
theorem radioEnable_idempotent_witness :
    radioEnable microbit microbit.DEVICE_OK ⟨true, 5, 3, 7, [], []⟩ =
      (0, ⟨true, 5, 3, 7, [], [.enable 0]⟩) :=
  (radioEnable_idempotent microbit).1 ⟨true, 5, 3, 7, [], []⟩ rfl

/-- C6: when the driver's `enable` returns a status `r` other than `DEVICE_OK`, `radioEnable`
raises the panic with code 43 right after the `enable` call, returns `r`, calls no setter and
leaves the flag, group, power, band and queue unchanged; and whenever `radioEnable` returns a
status other than `DEVICE_OK`, the panic with code 43 is the last call it logged. -/
theorem radioEnable_failure (T : Target) (r : Int) (s : World) :
    (r ≠ T.DEVICE_OK →
        radioEnable T r s = (r, { s with trace := s.trace ++ [.enable r, .panic 43] })) ∧
      ((radioEnable T r s).1 ≠ T.DEVICE_OK →
        (radioEnable T r s).2.trace = s.trace ++ [.enable r, .panic 43]) := by
  have h1 : r ≠ T.DEVICE_OK →
      radioEnable T r s = (r, { s with trace := s.trace ++ [.enable r, .panic 43] }) := by
    intro h
    rw [radioEnable_fail T r s h]
    simp [uBit_panic, record]
  refine ⟨h1, fun h => ?_⟩
  by_cases hr : r = T.DEVICE_OK
  · subst hr
    rw [radioEnable_ok] at h
    exact absurd rfl h
  · rw [h1 hr]

/-- Witness for `radioEnable_failure`: status -1 on a fresh micro:bit. -/
theorem radioEnable_failure_witness :
    (-1 : Int) ≠ microbit.DEVICE_OK ∧
    radioEnable microbit (-1) ⟨false, 0, 0, 0, [], []⟩ =
      (-1, ⟨false, 0, 0, 0, [], [.enable (-1), .panic 43]⟩) :=
  ⟨by decide, (radioEnable_failure microbit (-1) ⟨false, 0, 0, 0, [], []⟩).1 (by decide)⟩

/-- C7: in a state with `radioEnabled = false`, a `radioEnable` whose driver `enable` succeeds
calls `setGroup(pxt::programHash())` and then `setTransmitPower(6)`, sets `radioEnabled` and
returns `DEVICE_OK`; the group it sets is the program hash, so two targets with the same
program hash end with the same group. -/
theorem radioEnable_first (T : Target) (s : World) (h : s.radioEnabled = false) :
    radioEnable T T.DEVICE_OK s =
        (T.DEVICE_OK,
          { s with
            radioEnabled := true
            group := T.programHash
            power := 6
            trace := s.trace ++
              [.enable T.DEVICE_OK, .setGroup T.programHash, .setTransmitPower 6] }) ∧
      ∀ (U : Target) (u : World), u.radioEnabled = false → U.programHash = T.programHash →
        (radioEnable U U.DEVICE_OK u).2.group = (radioEnable T T.DEVICE_OK s).2.group := by
  have key : ∀ (U : Target) (u : World), u.radioEnabled = false →
      radioEnable U U.DEVICE_OK u =
        (U.DEVICE_OK,
          { u with
            radioEnabled := true
            group := U.programHash
            power := 6
            trace := u.trace ++
              [.enable U.DEVICE_OK, .setGroup U.programHash, .setTransmitPower 6] }) := by
    intro U u hu
    rw [radioEnable_ok, hu]
    simp [driver_setGroup, driver_setTransmitPower, record]
  refine ⟨key T s h, fun U u hu hh => ?_⟩
  rw [key T s h, key U u hu]
  exact hh

/-- Witness for `radioEnable_first`: a fresh micro:bit. -/
theorem radioEnable_first_witness :
    radioEnable microbit microbit.DEVICE_OK ⟨false, 0, 0, 0, [], []⟩ =
      (0, ⟨true, 123456789, 6, 0, [],
        [.enable 0, .setGroup 123456789, .setTransmitPower 6]⟩) :=
  (radioEnable_first microbit ⟨false, 0, 0, 0, [], []⟩ rfl).1

/-! ## The lifecycle invariant -/

theorem radioEnable_pair (T : Target) (r : Int) (s : World) :
    radioEnable T r s = (r, (radioEnable T r s).2) := by
  by_cases h : r = T.DEVICE_OK
  · subst h; rw [radioEnable_ok]
  · rw [radioEnable_fail T r s h]

theorem radioEnable_ok_enabled (T : Target) (s : World) :
    (radioEnable T T.DEVICE_OK s).2.radioEnabled = true := by
  rw [radioEnable_ok]
  cases h : s.radioEnabled <;> simp [record, h]

theorem step_fail (T : Target) (r : Int) (op : Op) (s : World) (h : r ≠ T.DEVICE_OK) :
    step T r op s = some { s with trace := s.trace ++ [.enable r, .panic 43] } := by
  have h1 : radioEnable T r s = (r, { s with trace := s.trace ++ [.enable r, .panic 43] }) := by
    rw [radioEnable_fail T r s h]
    simp [uBit_panic, record]
  cases op <;>
    simp [step, raiseEvent, readRawPacket, sendRawPacket, onDataReceived, setGroup,
      setTransmitPower, setFrequencyBand, h1, h]

theorem step_ok_enabled (T : Target) (op : Op) (s s' : World)
    (h : step T T.DEVICE_OK op s = some s') : s'.radioEnabled = true := by
  have h1 := radioEnable_ok_enabled T s
  have h2 := radioEnable_pair T T.DEVICE_OK s
  generalize (radioEnable T T.DEVICE_OK s).2 = s1 at h1 h2
  cases op with
  | readRawPacket =>
    simp only [step, readRawPacket, h2, ne_eq, not_true_eq_false, if_false, datagram_recv] at h
    cases hq : s1.rxQueue with
    | nil =>
      simp only [hq, Option.map_some', Option.some.injEq] at h
      rw [← h]; simpa [record] using h1
    | cons p q =>
      simp only [hq] at h
      cases hf : frame T p with
      | none => simp [hf] at h
      | some buf =>
        simp only [hf, Option.map_some', Option.some.injEq] at h
        rw [← h]; simpa [record] using h1
  | sendRawPacket msg =>
    simp only [step, sendRawPacket, h2, ne_eq, not_true_eq_false, if_false,
      Option.some.injEq] at h
    cases msg with
    | none => simp only at h; rw [← h]; exact h1
    | some b =>
      simp only at h
      split at h <;> (rw [← h]; simpa [datagram_send, record] using h1)
  | onDataReceived body =>
    simp only [step, onDataReceived, h2, ne_eq, not_true_eq_false, if_false,
      Option.some.injEq, datagram_recv, registerWithDal, record] at h
    rw [← h]
    split <;> simpa using h1
  | _ =>
    simp only [step, raiseEvent, setGroup, setTransmitPower, setFrequencyBand, h2, ne_eq,
      not_true_eq_false, if_false, Option.some.injEq] at h
    rw [← h]
    simpa [event_eventReceived, driver_setGroup, driver_setTransmitPower,
      driver_setFrequencyBand, record] using h1

theorem step_defined (T : Target) (r : Int) (op : Op) (s : World)
    (h : ∀ p q, s.rxQueue = p :: q → p.length ≤ T.DEVICE_RADIO_MAX_PACKET_SIZE + sizeofInt) :
    (step T r op s).isSome = true := by
  by_cases hr : r = T.DEVICE_OK
  · subst hr
    cases op with
    | readRawPacket =>
      cases hq : s.rxQueue with
      | nil =>
        have h1 : (radioEnable T T.DEVICE_OK s).2.rxQueue = [] := by
          rw [radioEnable_rxQueue, hq]
        have h2 := radioEnable_pair T T.DEVICE_OK s
        generalize (radioEnable T T.DEVICE_OK s).2 = s1 at h1 h2
        simp [step, readRawPacket, h2, datagram_recv, h1]
      | cons p q =>
        have hp := h p q hq
        rw [step, readRawPacket_recv T s p q hq, frame, payloadCopy_eq T p hp]
        unfold PacketBuffer.length at hp
        simp [memcpy, int32Bytes_length, sizeofInt, PacketBuffer.length] at hp ⊢
        omega
    | _ => simp [step]
  · rw [step_fail T r op s hr]; rfl

theorem run_invariant (T : Target) (es : List Event) :
    ∀ s0 s : World, run T es s0 = some s →
      (s0.radioEnabled = false → ∀ c ∈ s0.trace, c.failedEnable T = true) →
      (s.radioEnabled = false → ∀ c ∈ s.trace, c.failedEnable T = true) := by
  induction es with
  | nil =>
    intro s0 s h hinv
    simp only [run, Option.some.injEq] at h
    rw [← h]; exact hinv
  | cons e es ih =>
    intro s0 s h hinv
    cases e with
    | arrive p =>
      simp only [run] at h
      exact ih _ s h hinv
    | call r op =>
      simp only [run] at h
      cases hs : step T r op s0 with
      | none => simp [hs] at h
      | some s1 =>
        simp only [hs, Option.some_bind] at h
        refine ih s1 s h ?_
        by_cases hr : r = T.DEVICE_OK
        · subst hr
          intro hf
          rw [step_ok_enabled T op s0 s1 hs] at hf
          exact absurd hf (by decide)
        · rw [step_fail T r op s0 hr] at hs
          simp only [Option.some.injEq] at hs
          rw [← hs]
          intro hf c hc
          simp only [List.mem_append, List.mem_cons, List.mem_singleton, List.not_mem_nil,
            or_false] at hc
          rcases hc with hc | hc | hc
          · exact hinv hf c hc
          · subst hc; simp [Call.failedEnable, hr]
          · subst hc; simp [Call.failedEnable]

/-- C10: in every state reached from an initial state (`radioEnabled = false`, nothing logged)
by any sequence of public operations, with any `enable` statuses and any datagram arrivals in
between, `radioEnabled = false` implies that every call made so far is a failed `enable` or
the panic following it: no `enable` has succeeded and no setter, `send`, `recv` or event call
was made. Equivalently, every operation from such a state during which `enable` succeeds
leaves `radioEnabled = true`. -/
theorem lifecycle_invariant (T : Target) (es : List Event) (s0 s : World)
    (h0 : s0.radioEnabled = false ∧ s0.trace = []) (hrun : run T es s0 = some s) :
    (s.radioEnabled = false →
        ∀ c ∈ s.trace, (∃ r, r ≠ T.DEVICE_OK ∧ c = .enable r) ∨ c = .panic 43) ∧
      (∀ op s', step T T.DEVICE_OK op s = some s' → s'.radioEnabled = true) := by
  refine ⟨fun hf c hc => ?_, fun op s' h => step_ok_enabled T op s s' h⟩
  have h := run_invariant T es s0 s hrun (by intro _ c hc; simp [h0.2] at hc) hf c hc
  cases c with
  | enable r =>
    exact Or.inl ⟨r, by simpa [Call.failedEnable] using h, rfl⟩
  | panic code =>
    have : code = 43 := by simpa [Call.failedEnable] using h
    exact Or.inr (by rw [this])
  | _ => simp [Call.failedEnable] at h

/-- Witness for `lifecycle_invariant`: on a micro:bit a failed `setGroup(5)`, an arriving
datagram and a failed `readRawPacket` leave the flag false and only failed calls logged. -/
theorem lifecycle_invariant_witness :
    run microbit [.call (-1) (.setGroup 5), .arrive ⟨[1, 2, 3], -42⟩, .call (-2) .readRawPacket]
        ⟨false, 0, 0, 0, [], []⟩ =
      some ⟨false, 0, 0, 0, [⟨[1, 2, 3], -42⟩],
        [.enable (-1), .panic 43, .enable (-2), .panic 43]⟩ ∧
    ((false = false →
        ∀ c ∈ [Call.enable (-1), .panic 43, .enable (-2), .panic 43],
          (∃ r, r ≠ microbit.DEVICE_OK ∧ c = .enable r) ∨ c = .panic 43) ∧
      (∀ op s', step microbit microbit.DEVICE_OK op
          ⟨false, 0, 0, 0, [⟨[1, 2, 3], -42⟩],
            [.enable (-1), .panic 43, .enable (-2), .panic 43]⟩ = some s' →
        s'.radioEnabled = true)) :=
  ⟨by decide,
    lifecycle_invariant microbit
      [.call (-1) (.setGroup 5), .arrive ⟨[1, 2, 3], -42⟩, .call (-2) .readRawPacket]
      ⟨false, 0, 0, 0, [], []⟩
      ⟨false, 0, 0, 0, [⟨[1, 2, 3], -42⟩], [.enable (-1), .panic 43, .enable (-2), .panic 43]⟩
      ⟨rfl, rfl⟩ (by decide)⟩

/-! ## Operations when the driver cannot be enabled, and the empty queue -/

/-- C11: when the driver's `enable` returns a status other than `DEVICE_OK`, each public
operation, with any argument, logs the failed `enable` and the panic and nothing else: no
setter, `send`, `recv`, `eventReceived` or `registerWithDal` call is made, so group, power,
band, receive queue and the sends logged are unchanged, and `readRawPacket` returns a
zero-length buffer. -/
theorem operations_noop_on_failure (T : Target) (r : Int) (s : World) (hr : r ≠ T.DEVICE_OK) :
    (∀ src value, raiseEvent T r src value s =
        { s with trace := s.trace ++ [.enable r, .panic 43] }) ∧
      (∃ b, readRawPacket T r s =
          some (b, { s with trace := s.trace ++ [.enable r, .panic 43] }) ∧ b.length = 0) ∧
      (∀ msg, sendRawPacket T r msg s =
        { s with trace := s.trace ++ [.enable r, .panic 43] }) ∧
      (∀ body, onDataReceived T r body s =
        { s with trace := s.trace ++ [.enable r, .panic 43] }) ∧
      (∀ id, setGroup T r id s = { s with trace := s.trace ++ [.enable r, .panic 43] }) ∧
      (∀ power, setTransmitPower T r power s =
        { s with trace := s.trace ++ [.enable r, .panic 43] }) ∧
      (∀ band, setFrequencyBand T r band s =
        { s with trace := s.trace ++ [.enable r, .panic 43] }) ∧
      sends (s.trace ++ [.enable r, .panic 43]) = sends s.trace ∧
      events (s.trace ++ [.enable r, .panic 43]) = events s.trace ∧
      recvs (s.trace ++ [.enable r, .panic 43]) = recvs s.trace := by
  have h1 : radioEnable T r s = (r, { s with trace := s.trace ++ [.enable r, .panic 43] }) := by
    rw [radioEnable_fail T r s hr]
    simp [uBit_panic, record]
  refine ⟨?_, ?_, ?_, ?_, ?_, ?_, ?_, ?_, ?_, ?_⟩
  · intro src value; simp [raiseEvent, h1, hr]
  · refine ⟨mkBuffer [] 0 (by decide), ?_, rfl⟩
    simp [readRawPacket, h1, hr]
  · intro msg; simp [sendRawPacket, h1, hr]
  · intro body; simp [onDataReceived, h1, hr]
  · intro id; simp [setGroup, h1, hr]
  · intro power; simp [setTransmitPower, h1, hr]
  · intro band; simp [setFrequencyBand, h1, hr]
  · simp [sends, List.filterMap_append]
  · simp [events, List.filterMap_append]
  · simp [recvs, List.count_append, List.count_cons]

/-- Witness for `operations_noop_on_failure`: status -1 on a configured micro:bit with a
queued datagram. -/
theorem operations_noop_on_failure_witness :
    (-1 : Int) ≠ microbit.DEVICE_OK ∧
    ∃ b, readRawPacket microbit (-1) ⟨true, 5, 3, 7, [⟨[1, 2, 3], -42⟩], []⟩ =
        some (b, ⟨true, 5, 3, 7, [⟨[1, 2, 3], -42⟩], [.enable (-1), .panic 43]⟩) ∧
      b.length = 0 :=
  ⟨by decide,
    (operations_noop_on_failure microbit (-1) ⟨true, 5, 3, 7, [⟨[1, 2, 3], -42⟩], []⟩
      (by decide)).2.1⟩

/-- C12: in every state whose receive queue is empty, whatever the flag, group, power and band
and whatever `enable` returns, `readRawPacket` returns a buffer of length 0 and the receive
queue is still empty afterwards; when `enable` succeeds the driver's `recv` was called once
and returned the empty sentinel. -/
theorem readRawPacket_empty_queue (T : Target) (r : Int) (s : World) (hq : s.rxQueue = []) :
    (∃ b s', readRawPacket T r s = some (b, s') ∧ b.length = 0 ∧ s'.rxQueue = []) ∧
      (datagram_recv (radioEnable T T.DEVICE_OK s).2).1 = none ∧
      readRawPacket T T.DEVICE_OK s =
        some (mkBuffer [] 0 (by decide), record .recv (radioEnable T T.DEVICE_OK s).2) := by
  have hrx : ∀ r, (radioEnable T r s).2.rxQueue = [] := fun r => by
    rw [radioEnable_rxQueue, hq]
  have key : ∀ r, r = T.DEVICE_OK → readRawPacket T r s =
      some (mkBuffer [] 0 (by decide), record .recv (radioEnable T r s).2) := by
    intro r h
    subst h
    have h1 := hrx T.DEVICE_OK
    have h2 := radioEnable_pair T T.DEVICE_OK s
    generalize (radioEnable T T.DEVICE_OK s).2 = s1 at h1 h2
    simp [readRawPacket, h2, datagram_recv, h1]
  refine ⟨?_, ?_, key _ rfl⟩
  · by_cases h : r = T.DEVICE_OK
    · refine ⟨_, _, key r h, rfl, ?_⟩
      simpa [record] using hrx r
    · have h1 : radioEnable T r s = (r, uBit_panic 43 (record (.enable r) s)) :=
        radioEnable_fail T r s h
      refine ⟨mkBuffer [] 0 (by decide), uBit_panic 43 (record (.enable r) s), ?_, rfl, ?_⟩
      · simp [readRawPacket, h1, h]
      · simpa [uBit_panic, record] using hq
  · have h1 := hrx T.DEVICE_OK
    generalize (radioEnable T T.DEVICE_OK s).2 = s1 at h1
    simp [datagram_recv, h1]

/-- Witness for `readRawPacket_empty_queue`: a fresh micro:bit with nothing received. -/
theorem readRawPacket_empty_queue_witness :
    ∃ b s', readRawPacket microbit microbit.DEVICE_OK ⟨false, 0, 0, 0, [], []⟩ = some (b, s') ∧
      b.length = 0 ∧ s'.rxQueue = [] :=
  (readRawPacket_empty_queue microbit microbit.DEVICE_OK ⟨false, 0, 0, 0, [], []⟩ rfl).1

/-! ## Configuration setters and the event relay -/

theorem setGroup_eq (T : Target) (s : World) (v : Int) :
    setGroup T T.DEVICE_OK v s = driver_setGroup v (radioEnable T T.DEVICE_OK s).2 := by
  rw [setGroup, radioEnable_pair]; simp

theorem setTransmitPower_eq (T : Target) (s : World) (v : Int) :
    setTransmitPower T T.DEVICE_OK v s =
      driver_setTransmitPower v (radioEnable T T.DEVICE_OK s).2 := by
  rw [setTransmitPower, radioEnable_pair]; simp

theorem setFrequencyBand_eq (T : Target) (s : World) (v : Int) :
    setFrequencyBand T T.DEVICE_OK v s =
      driver_setFrequencyBand v (radioEnable T T.DEVICE_OK s).2 := by
  rw [setFrequencyBand, radioEnable_pair]; simp

theorem radioEnable_fresh (T : Target) (s : World) (h : s.radioEnabled = false) :
    (radioEnable T T.DEVICE_OK s).2 =
      { s with
        radioEnabled := true
        group := T.programHash
        power := 6
        trace := s.trace ++
          [.enable T.DEVICE_OK, .setGroup T.programHash, .setTransmitPower 6] } := by
  rw [radioEnable_ok, h]
  simp [driver_setGroup, driver_setTransmitPower, record]

/-- C13: for every int `v`, in or out of the documented range, `setGroup(v)`,
`setTransmitPower(v)` and `setFrequencyBand(v)` with `enable` succeeding pass exactly `v` to
the corresponding driver setter as the last call of the operation, after whatever
`radioEnable` did; the setting ends as `v` and the other two settings are as `radioEnable`
left them. On the first call from a state with `radioEnabled = false` the defaults
`setGroup(programHash())` and `setTransmitPower(6)` are logged before the user's value. -/
theorem setters_forward_raw (T : Target) (s : World) (v : Int) :
    ((setGroup T T.DEVICE_OK v s).trace = (radioEnable T T.DEVICE_OK s).2.trace ++ [.setGroup v] ∧
        (setGroup T T.DEVICE_OK v s).group = v ∧
        (setGroup T T.DEVICE_OK v s).power = (radioEnable T T.DEVICE_OK s).2.power ∧
        (setGroup T T.DEVICE_OK v s).band = (radioEnable T T.DEVICE_OK s).2.band) ∧
      ((setTransmitPower T T.DEVICE_OK v s).trace =
          (radioEnable T T.DEVICE_OK s).2.trace ++ [.setTransmitPower v] ∧
        (setTransmitPower T T.DEVICE_OK v s).power = v ∧
        (setTransmitPower T T.DEVICE_OK v s).group = (radioEnable T T.DEVICE_OK s).2.group ∧
        (setTransmitPower T T.DEVICE_OK v s).band = (radioEnable T T.DEVICE_OK s).2.band) ∧
      ((setFrequencyBand T T.DEVICE_OK v s).trace =
          (radioEnable T T.DEVICE_OK s).2.trace ++ [.setFrequencyBand v] ∧
        (setFrequencyBand T T.DEVICE_OK v s).band = v ∧
        (setFrequencyBand T T.DEVICE_OK v s).group = (radioEnable T T.DEVICE_OK s).2.group ∧
        (setFrequencyBand T T.DEVICE_OK v s).power = (radioEnable T T.DEVICE_OK s).2.power) ∧
      (s.radioEnabled = false →
        setGroup T T.DEVICE_OK v s =
            { s with
              radioEnabled := true
              group := v
              power := 6
              trace := s.trace ++ [.enable T.DEVICE_OK, .setGroup T.programHash,
                .setTransmitPower 6, .setGroup v] } ∧
          setTransmitPower T T.DEVICE_OK v s =
            { s with
              radioEnabled := true
              group := T.programHash
              power := v
              trace := s.trace ++ [.enable T.DEVICE_OK, .setGroup T.programHash,
                .setTransmitPower 6, .setTransmitPower v] } ∧
          setFrequencyBand T T.DEVICE_OK v s =
            { s with
              radioEnabled := true
              group := T.programHash
              power := 6
              band := v
              trace := s.trace ++ [.enable T.DEVICE_OK, .setGroup T.programHash,
                .setTransmitPower 6, .setFrequencyBand v] }) := by
  refine ⟨?_, ?_, ?_, fun h => ⟨?_, ?_, ?_⟩⟩
  · rw [setGroup_eq]; simp [driver_setGroup, record]
  · rw [setTransmitPower_eq]; simp [driver_setTransmitPower, record]
  · rw [setFrequencyBand_eq]; simp [driver_setFrequencyBand, record]
  · rw [setGroup_eq, radioEnable_fresh T s h]; simp [driver_setGroup, record]
  · rw [setTransmitPower_eq, radioEnable_fresh T s h]; simp [driver_setTransmitPower, record]
  · rw [setFrequencyBand_eq, radioEnable_fresh T s h]; simp [driver_setFrequencyBand, record]

/-- Witness for `setters_forward_raw`: `setGroup(-300)`, far outside `0..255`, as the first
call on a fresh micro:bit. -/
theorem setters_forward_raw_witness :
    setGroup microbit microbit.DEVICE_OK (-300) ⟨false, 0, 0, 0, [], []⟩ =
      ⟨true, -300, 6, 0, [],
        [.enable 0, .setGroup 123456789, .setTransmitPower 6, .setGroup (-300)]⟩ :=
  ((setters_forward_raw microbit ⟨false, 0, 0, 0, [], []⟩ (-300)).2.2.2 rfl).1

theorem radioEnable_events (T : Target) (r : Int) (s : World) :
    events (radioEnable T r s).2.trace = events s.trace := by
  by_cases h : r = T.DEVICE_OK
  · subst h
    rw [radioEnable_ok]
    cases h : s.radioEnabled <;>
      simp [record, driver_setGroup, driver_setTransmitPower, events, List.filterMap_append]
  · rw [radioEnable_fail T r s h]
    simp [uBit_panic, record, events, List.filterMap_append]

theorem radioEnable_recvs (T : Target) (r : Int) (s : World) :
    recvs (radioEnable T r s).2.trace = recvs s.trace := by
  by_cases h : r = T.DEVICE_OK
  · subst h
    rw [radioEnable_ok]
    cases h : s.radioEnabled <;>
      simp [record, driver_setGroup, driver_setTransmitPower, recvs, List.count_append,
        List.count_cons]
  · rw [radioEnable_fail T r s h]
    simp [uBit_panic, record, recvs, List.count_append, List.count_cons]

/-- C14: for all ints `src` and `value`, `raiseEvent(src, value)` with `enable` succeeding hands
exactly one event record to `event.eventReceived`, with that source, that value and mode
`CREATE_ONLY`, as the last call after `radioEnable`, and makes no `datagram.send` or
`datagram.recv` call. -/
theorem raiseEvent_delivers (T : Target) (s : World) (src value : Int) :
    raiseEvent T T.DEVICE_OK src value s =
        record (.eventReceived ⟨src, value, .CREATE_ONLY⟩) (radioEnable T T.DEVICE_OK s).2 ∧
      events (raiseEvent T T.DEVICE_OK src value s).trace =
        events s.trace ++ [⟨src, value, .CREATE_ONLY⟩] ∧
      sends (raiseEvent T T.DEVICE_OK src value s).trace = sends s.trace ∧
      recvs (raiseEvent T T.DEVICE_OK src value s).trace = recvs s.trace := by
  have key : raiseEvent T T.DEVICE_OK src value s =
      record (.eventReceived ⟨src, value, .CREATE_ONLY⟩) (radioEnable T T.DEVICE_OK s).2 := by
    rw [raiseEvent, radioEnable_pair]; simp [event_eventReceived]
  refine ⟨key, ?_, ?_, ?_⟩
  · rw [key]
    simp only [record]
    rw [events, List.filterMap_append, ← events, radioEnable_events]
    simp
  · rw [key]
    simp only [record, sends_append, radioEnable_sends]
    simp [sends]
  · rw [key]
    simp only [record]
    rw [recvs, List.count_append, ← recvs, radioEnable_recvs]
    simp [List.count_cons]

/-- The scenario of C14: `raiseEvent(7, 42)` on a fresh micro:bit delivers the single event
record `(7, 42, CREATE_ONLY)`. -/
theorem raiseEvent_delivers_witness :
    events (raiseEvent microbit microbit.DEVICE_OK 7 42 ⟨false, 0, 0, 0, [], []⟩).trace =
      [⟨7, 42, .CREATE_ONLY⟩] :=
  (raiseEvent_delivers microbit ⟨false, 0, 0, 0, [], []⟩ 7 42).2.1

/-- C15: for every handler and every content of the receive queue, `onDataReceived` with
`enable` succeeding logs, after the calls of `radioEnable`, the registration of the handler for
`(DEVICE_ID_RADIO, DEVICE_RADIO_EVT_DATAGRAM)` and then exactly one `recv`, whose result is
dropped; no `send` and no further setter call is made, group, power and band are as
`radioEnable` left them, and the queue loses its first datagram (a queue of `k ≥ 1` datagrams
holds `k - 1` afterwards, an empty one stays empty). -/
theorem onDataReceived_primes (T : Target) (s : World) (body : Action) :
    onDataReceived T T.DEVICE_OK body s =
        (datagram_recv (registerWithDal T.deviceIdRadio T.deviceRadioEvtDatagram body
          (radioEnable T T.DEVICE_OK s).2)).2 ∧
      (onDataReceived T T.DEVICE_OK body s).trace =
        (radioEnable T T.DEVICE_OK s).2.trace ++
          [.registerWithDal T.deviceIdRadio T.deviceRadioEvtDatagram body, .recv] ∧
      (onDataReceived T T.DEVICE_OK body s).rxQueue = s.rxQueue.tail ∧
      (onDataReceived T T.DEVICE_OK body s).rxQueue.length = s.rxQueue.length - 1 ∧
      sends (onDataReceived T T.DEVICE_OK body s).trace = sends s.trace ∧
      recvs (onDataReceived T T.DEVICE_OK body s).trace = recvs s.trace + 1 ∧
      (onDataReceived T T.DEVICE_OK body s).group = (radioEnable T T.DEVICE_OK s).2.group ∧
      (onDataReceived T T.DEVICE_OK body s).power = (radioEnable T T.DEVICE_OK s).2.power ∧
      (onDataReceived T T.DEVICE_OK body s).band = (radioEnable T T.DEVICE_OK s).2.band := by
  have key : onDataReceived T T.DEVICE_OK body s =
      (datagram_recv (registerWithDal T.deviceIdRadio T.deviceRadioEvtDatagram body
        (radioEnable T T.DEVICE_OK s).2)).2 := by
    rw [onDataReceived, radioEnable_pair]; simp
  have hrx := radioEnable_rxQueue T T.DEVICE_OK s
  have hs := radioEnable_sends T T.DEVICE_OK s
  have hr := radioEnable_recvs T T.DEVICE_OK s
  rw [key]
  generalize (radioEnable T T.DEVICE_OK s).2 = s1 at hrx hs hr
  refine ⟨rfl, ?_⟩
  cases hq : s.rxQueue with
  | nil =>
    rw [hq] at hrx
    simp only [sends, recvs] at hs hr
    simp [datagram_recv, registerWithDal, record, hrx, sends, recvs, List.filterMap_append,
      List.count_append, List.count_cons, hs, hr]
  | cons p q =>
    rw [hq] at hrx
    simp only [sends, recvs] at hs hr
    simp [datagram_recv, registerWithDal, record, hrx, sends, recvs, List.filterMap_append,
      List.count_append, List.count_cons, hs, hr]

/-- Witness for `onDataReceived_primes`: on a configured micro:bit with two queued
datagrams, registering handler 9 drops the first datagram and keeps the second. -/
theorem onDataReceived_primes_witness :
    (onDataReceived microbit microbit.DEVICE_OK 9
        ⟨true, 5, 3, 7, [⟨[1], -40⟩, ⟨[2], -50⟩], []⟩).rxQueue =
      List.tail [⟨[1], -40⟩, ⟨[2], -50⟩] :=
  (onDataReceived_primes microbit ⟨true, 5, 3, 7, [⟨[1], -40⟩, ⟨[2], -50⟩], []⟩ 9).2.2.1

/-- C16: for a datagram of length `L ≤ MAX` and any RSSI, sending the buffer `readRawPacket`
returned makes the driver transmit exactly `MAX` bytes, the `L` payload bytes followed by
`MAX - L` zero bytes: the same for every RSSI, with no RSSI byte in it, and, when `L < MAX`,
the same as for the longer datagram that carries one more zero byte, so that `L` cannot be
recovered from what is transmitted. -/
theorem roundtrip_transmits_MAX (T : Target) (hM : 0 < T.DEVICE_RADIO_MAX_PACKET_SIZE)
    (s : World) (p : PacketBuffer) (q : List PacketBuffer) (hq : s.rxQueue = p :: q)
    (hL : p.length ≤ T.DEVICE_RADIO_MAX_PACKET_SIZE) :
    (∃ b s', readRawPacket T T.DEVICE_OK s = some (b, s') ∧
        sends (sendRawPacket T T.DEVICE_OK (some b) s').trace =
          sends s'.trace ++
            [(p.getBytes ++ List.replicate (T.DEVICE_RADIO_MAX_PACKET_SIZE - p.length) 0,
              (T.DEVICE_RADIO_MAX_PACKET_SIZE : Int))]) ∧
      (p.getBytes ++ List.replicate (T.DEVICE_RADIO_MAX_PACKET_SIZE - p.length) 0).length =
        T.DEVICE_RADIO_MAX_PACKET_SIZE ∧
      (∀ (R : Int) (u : World), u.rxQueue = ⟨p.payload, R⟩ :: q →
        ∃ b u', readRawPacket T T.DEVICE_OK u = some (b, u') ∧
          sends (sendRawPacket T T.DEVICE_OK (some b) u').trace =
            sends u'.trace ++
              [(p.getBytes ++ List.replicate (T.DEVICE_RADIO_MAX_PACKET_SIZE - p.length) 0,
                (T.DEVICE_RADIO_MAX_PACKET_SIZE : Int))]) ∧
      (p.length < T.DEVICE_RADIO_MAX_PACKET_SIZE →
        ∀ (R : Int) (u : World), u.rxQueue = ⟨p.payload ++ [0], R⟩ :: q →
          ∃ b u', readRawPacket T T.DEVICE_OK u = some (b, u') ∧
            sends (sendRawPacket T T.DEVICE_OK (some b) u').trace =
              sends u'.trace ++
                [(p.getBytes ++ List.replicate (T.DEVICE_RADIO_MAX_PACKET_SIZE - p.length) 0,
                  (T.DEVICE_RADIO_MAX_PACKET_SIZE : Int))]) := by
  refine ⟨roundtrip_sends T s p q hq hL hM, ?_, ?_, ?_⟩
  · unfold PacketBuffer.length at *; simp [PacketBuffer.getBytes]; omega
  · intro R u hu
    exact roundtrip_sends T u ⟨p.payload, R⟩ q hu hL hM
  · intro hlt R u hu
    have h1 : PacketBuffer.length ⟨p.payload ++ [0], R⟩ ≤ T.DEVICE_RADIO_MAX_PACKET_SIZE := by
      unfold PacketBuffer.length at *; simp; omega
    obtain ⟨b, u', h2, h3⟩ := roundtrip_sends T u ⟨p.payload ++ [0], R⟩ q hu h1 hM
    refine ⟨b, u', h2, ?_⟩
    rw [h3]
    have h4 : T.DEVICE_RADIO_MAX_PACKET_SIZE - p.length =
        (T.DEVICE_RADIO_MAX_PACKET_SIZE - (p.length + 1)) + 1 := by omega
    simp only [PacketBuffer.length, PacketBuffer.getBytes, List.length_append,
      List.length_singleton, List.append_assoc] at *
    rw [h4, List.replicate_succ]
    simp

/-- Witness for `roundtrip_transmits_MAX`: the three-byte datagram `[1, 2, 3]` with RSSI -42
on the micro:bit is sent on as 32 bytes. -/
theorem roundtrip_transmits_MAX_witness :
    ∃ b s', readRawPacket microbit microbit.DEVICE_OK
        ⟨false, 0, 0, 0, [⟨[1, 2, 3], -42⟩], []⟩ = some (b, s') ∧
      sends (sendRawPacket microbit microbit.DEVICE_OK (some b) s').trace =
        sends s'.trace ++
          [(PacketBuffer.getBytes ⟨[1, 2, 3], -42⟩ ++
              List.replicate (microbit.DEVICE_RADIO_MAX_PACKET_SIZE -
                PacketBuffer.length ⟨[1, 2, 3], -42⟩) 0,
            (microbit.DEVICE_RADIO_MAX_PACKET_SIZE : Int))] :=
  (roundtrip_transmits_MAX microbit (by decide) ⟨false, 0, 0, 0, [⟨[1, 2, 3], -42⟩], []⟩
    ⟨[1, 2, 3], -42⟩ [] rfl (by decide)).1

end radio
